import Mathlib

/-!
Shallow embedding of `robot_trajectory::RobotTrajectory`
(src/moveit_core/robot_trajectory/include/moveit/robot_trajectory/robot_trajectory.h)
for the waypoint / duration-from-previous bookkeeping.

Modelling decisions:
* `moveit::core::RobotState` is opaque to every operation considered here
  (the trajectory only stores states; `RobotState::update()` recomputes
  internal caches of the state object and does not touch the trajectory's
  containers), so it is modelled as an abstract token type.
* The two `std::deque` members are modelled as Lean lists.
* C++ `double` durations are modelled as `Rat`: the operations under study
  only store, move and return duration values (the literals involved are
  `0.0`), no floating-point arithmetic occurs, so the model is exact.
-/

namespace RobotTrajectoryModel

/-- Model of `moveit::core::RobotState`, abstract: the operations modelled here never
inspect a state's contents. -/
def RobotState := Nat

instance : DecidableEq RobotState := inferInstanceAs (DecidableEq Nat)

instance (n : Nat) : OfNat RobotState n := inferInstanceAs (OfNat Nat n)

/-- Model of `RobotState::update()`: recomputes the state's internal transform caches.
It does not change what the trajectory containers observe about the state,
hence it is the identity on the abstract state token. -/
def RobotState.update (s : RobotState) : RobotState := s

/-- The two container members of `robot_trajectory::RobotTrajectory`:
`std::deque<moveit::core::RobotStatePtr> waypoints_` and
`std::deque<double> duration_from_previous_`. -/
structure RobotTrajectory where
  waypoints_ : List RobotState
  duration_from_previous_ : List Rat

namespace RobotTrajectory

/-- The constructor `RobotTrajectory(robot_model)`: both deques start empty. -/
def init : RobotTrajectory := ⟨[], []⟩

/-- Model of `std::deque<double>::resize(n, fill)`: truncates to `n` elements when the
deque is at least that long, otherwise appends copies of `fill` up to size
`n`. -/
def dequeResize (l : List Rat) (n : Nat) (fill : Rat) : List Rat :=
  if n ≤ l.length then l.take n else l ++ List.replicate (n - l.length) fill

/-- Model of `RobotTrajectory::getWayPointCount()`: `waypoints_.size()`. -/
def getWayPointCount (t : RobotTrajectory) : Nat :=
  t.waypoints_.length

/-- Model of `RobotTrajectory::size()`: asserts
`waypoints_.size() == duration_from_previous_.size()` and returns
`waypoints_.size()`. The asserted equality is the size invariant studied
below; the returned value is modelled here. -/
def size (t : RobotTrajectory) : Nat :=
  t.waypoints_.length

/-- Model of `RobotTrajectory::getWayPointDurationFromPrevious(index)`:
returns `duration_from_previous_[index]` when
`duration_from_previous_.size() > index`, else `0.0`. -/
def getWayPointDurationFromPrevious (t : RobotTrajectory) (index : Nat) : Rat :=
  if h : index < t.duration_from_previous_.length then
    t.duration_from_previous_.get ⟨index, h⟩
  else
    0

/-- Model of `RobotTrajectory::setWayPointDurationFromPrevious(index, value)`:
when `duration_from_previous_.size() <= index`, first
`duration_from_previous_.resize(index + 1, 0.0)`; then
`duration_from_previous_[index] = value`. -/
def setWayPointDurationFromPrevious (t : RobotTrajectory) (index : Nat) (value : Rat) :
    RobotTrajectory :=
  let d :=
    if t.duration_from_previous_.length ≤ index then
      dequeResize t.duration_from_previous_ (index + 1) 0
    else
      t.duration_from_previous_
  { t with duration_from_previous_ := d.set index value }

/-- Model of `RobotTrajectory::addSuffixWayPoint(state, dt)`: `state->update()`, then
`waypoints_.push_back(state)` and `duration_from_previous_.push_back(dt)`. -/
def addSuffixWayPoint (t : RobotTrajectory) (state : RobotState) (dt : Rat) :
    RobotTrajectory :=
  { t with
    waypoints_ := t.waypoints_ ++ [state.update]
    duration_from_previous_ := t.duration_from_previous_ ++ [dt] }

/-- Model of `RobotTrajectory::addPrefixWayPoint(state, dt)`: `state->update()`, then
`waypoints_.push_front(state)` and `duration_from_previous_.push_front(dt)`. -/
def addPrefixWayPoint (t : RobotTrajectory) (state : RobotState) (dt : Rat) :
    RobotTrajectory :=
  { t with
    waypoints_ := state.update :: t.waypoints_
    duration_from_previous_ := dt :: t.duration_from_previous_ }

/-- Model of `RobotTrajectory::insertWayPoint(index, state, dt)`: `state->update()`,
then `waypoints_.insert(waypoints_.begin() + index, state)` and
`duration_from_previous_.insert(duration_from_previous_.begin() + index, dt)`.
(`begin() + index` is only defined for `index ≤ size`; the reachability
relation below carries that side condition.) -/
def insertWayPoint (t : RobotTrajectory) (index : Nat) (state : RobotState) (dt : Rat) :
    RobotTrajectory :=
  { t with
    waypoints_ := t.waypoints_.insertIdx index state.update
    duration_from_previous_ := t.duration_from_previous_.insertIdx index dt }

/-- Model of `RobotTrajectory::clear()`: `waypoints_.clear()` and
`duration_from_previous_.clear()`. -/
def clear (t : RobotTrajectory) : RobotTrajectory :=
  { t with waypoints_ := [], duration_from_previous_ := [] }

end RobotTrajectory

/-- Trajectories reachable from the empty trajectory by the public operations
named in the size-invariant claim, exactly as that claim lists them
(`insertWayPoint` carries `index ≤ waypoints_.size()`, the definedness
condition of `begin() + index` on a `std::deque`). -/
inductive Reachable : RobotTrajectory → Prop
  | init : Reachable RobotTrajectory.init
  | addSuffix (t : RobotTrajectory) (s : RobotState) (dt : Rat) :
      Reachable t → Reachable (t.addSuffixWayPoint s dt)
  | addPrefix (t : RobotTrajectory) (s : RobotState) (dt : Rat) :
      Reachable t → Reachable (t.addPrefixWayPoint s dt)
  | insert (t : RobotTrajectory) (i : Nat) (s : RobotState) (dt : Rat) :
      i ≤ t.waypoints_.length → Reachable t → Reachable (t.insertWayPoint i s dt)
  | setDuration (t : RobotTrajectory) (i : Nat) (v : Rat) :
      Reachable t → Reachable (t.setWayPointDurationFromPrevious i v)
  | clear (t : RobotTrajectory) :
      Reachable t → Reachable t.clear

/-- Same reachability relation, with the one restriction the counterexample
to the unrestricted claim forces: `setWayPointDurationFromPrevious` is only
invoked with an index strictly below the current waypoint count. -/
inductive ReachableInRange : RobotTrajectory → Prop
  | init : ReachableInRange RobotTrajectory.init
  | addSuffix (t : RobotTrajectory) (s : RobotState) (dt : Rat) :
      ReachableInRange t → ReachableInRange (t.addSuffixWayPoint s dt)
  | addPrefix (t : RobotTrajectory) (s : RobotState) (dt : Rat) :
      ReachableInRange t → ReachableInRange (t.addPrefixWayPoint s dt)
  | insert (t : RobotTrajectory) (i : Nat) (s : RobotState) (dt : Rat) :
      i ≤ t.waypoints_.length → ReachableInRange t →
      ReachableInRange (t.insertWayPoint i s dt)
  | setDuration (t : RobotTrajectory) (i : Nat) (v : Rat) :
      i < t.waypoints_.length → ReachableInRange t →
      ReachableInRange (t.setWayPointDurationFromPrevious i v)
  | clear (t : RobotTrajectory) :
      ReachableInRange t → ReachableInRange t.clear

end RobotTrajectoryModel

/-- Concrete trajectory used by witnesses: two waypoints with durations
`3` and `4`. -/
def tEx : RobotTrajectoryModel.RobotTrajectory := ⟨[0, 1], [3, 4]⟩

/-- Concrete trajectory used by witnesses: one waypoint with duration `7`. -/
def tEx2 : RobotTrajectoryModel.RobotTrajectory := ⟨[5], [7]⟩

namespace RobotTrajectoryModel

/-- The duration deque produced by `setWayPointDurationFromPrevious`, read off
the definition: the (possibly resized) deque with position `index` set. -/
theorem setDur_durations (t : RobotTrajectory) (index : Nat) (value : Rat) :
    (t.setWayPointDurationFromPrevious index value).duration_from_previous_ =
      (if t.duration_from_previous_.length ≤ index then
        RobotTrajectory.dequeResize t.duration_from_previous_ (index + 1) 0
      else t.duration_from_previous_).set index value := rfl

/-- Reading back the position just written by `List.set`. -/
theorem getD_set_self (l : List Rat) (i : Nat) (v : Rat) (h : i < l.length) :
    (l.set i v).getD i 0 = v := by
  rw [List.getD_eq_getElem _ _ (by simpa using h)]
  exact List.getElem_set_self (by simpa using h)

/-- Reading a position other than the one written by `List.set`. -/
theorem getD_set_ne (l : List Rat) (i j : Nat) (v : Rat) (hij : i ≠ j) :
    (l.set i v).getD j 0 = l.getD j 0 := by
  by_cases hj : j < l.length
  · rw [List.getD_eq_getElem _ _ (by simpa using hj), List.getD_eq_getElem _ _ hj]
    exact List.getElem_set_of_ne hij v (by simpa using hj)
  · rw [List.getD_eq_default _ _ (by simpa using Nat.le_of_not_lt hj),
      List.getD_eq_default _ _ (Nat.le_of_not_lt hj)]

/-- C1 counterexample: calling `setWayPointDurationFromPrevious(0, 1.0)` on
the empty trajectory is a sequence of the public operations listed by the
claim, yet it yields zero waypoints and one duration entry, so the equality
asserted in `size()` fails on a reachable trajectory. -/
theorem C1_counterexample :
    Reachable (RobotTrajectory.init.setWayPointDurationFromPrevious 0 1) ∧
    ¬ (RobotTrajectory.init.setWayPointDurationFromPrevious 0 1).waypoints_.length =
        (RobotTrajectory.init.setWayPointDurationFromPrevious 0 1).duration_from_previous_.length :=
  ⟨Reachable.setDuration _ 0 1 Reachable.init, by decide⟩

/-- C1 (amended): for every trajectory reachable from the empty trajectory by
`addSuffixWayPoint`, `addPrefixWayPoint`, `insertWayPoint`, `clear`, and
`setWayPointDurationFromPrevious` restricted to indices strictly below the
current waypoint count, the number of waypoints equals the number of entries
of `duration_from_previous_`; each case of the induction is the preservation
of the invariant by the corresponding operation. -/
theorem C1_size_invariant (t : RobotTrajectory) (h : ReachableInRange t) :
    t.waypoints_.length = t.duration_from_previous_.length := by
  induction h with
  | init => rfl
  | addSuffix t s dt h ih =>
      simp [RobotTrajectory.addSuffixWayPoint, ih]
  | addPrefix t s dt h ih =>
      simp [RobotTrajectory.addPrefixWayPoint, ih]
  | insert t i s dt hi h ih =>
      simp [RobotTrajectory.insertWayPoint,
        List.length_insertIdx i _ hi, List.length_insertIdx i _ (ih ▸ hi), ih]
  | setDuration t i v hi h ih =>
      have hd : ¬ t.duration_from_previous_.length ≤ i := by omega
      simp [RobotTrajectory.setWayPointDurationFromPrevious, hd, ih]
  | clear t h ih => rfl

/-- Witness for C1 (amended): a concrete in-range run, one `addSuffixWayPoint`
followed by `setWayPointDurationFromPrevious 0 5`. -/
theorem C1_size_invariant_witness :
    ((RobotTrajectory.init.addSuffixWayPoint 7 1).setWayPointDurationFromPrevious
        0 5).waypoints_.length =
      ((RobotTrajectory.init.addSuffixWayPoint 7 1).setWayPointDurationFromPrevious
        0 5).duration_from_previous_.length :=
  C1_size_invariant _
    (ReachableInRange.setDuration _ 0 5 (by decide)
      (ReachableInRange.addSuffix _ 7 1 ReachableInRange.init))

end RobotTrajectoryModel

namespace RobotTrajectoryModel

/-- C2: after `setWayPointDurationFromPrevious(index, value)`, the duration at
`index` equals `value`; the duration sequence has length at least `index + 1`;
positions newly created by the resize (from the old length up to `index - 1`)
hold `0.0`; and every pre-existing position other than `index` is unchanged. -/
theorem C2_setWayPointDurationFromPrevious_spec (t : RobotTrajectory) (index : Nat)
    (value : Rat) :
    (t.setWayPointDurationFromPrevious index value).duration_from_previous_.getD index 0 =
      value ∧
    index + 1 ≤
      (t.setWayPointDurationFromPrevious index value).duration_from_previous_.length ∧
    (∀ j, t.duration_from_previous_.length ≤ j → j < index →
      (t.setWayPointDurationFromPrevious index value).duration_from_previous_.getD j 0 = 0) ∧
    (∀ j, j < t.duration_from_previous_.length → j ≠ index →
      (t.setWayPointDurationFromPrevious index value).duration_from_previous_.getD j 0 =
        t.duration_from_previous_.getD j 0) := by
  by_cases hle : t.duration_from_previous_.length ≤ index
  · have hres : (t.setWayPointDurationFromPrevious index value).duration_from_previous_ =
        (t.duration_from_previous_ ++
          List.replicate (index + 1 - t.duration_from_previous_.length) 0).set index value := by
      rw [setDur_durations, if_pos hle]
      simp only [RobotTrajectory.dequeResize]
      rw [if_neg (by omega)]
    refine ⟨?_, ?_, ?_, ?_⟩
    · rw [hres]
      exact getD_set_self _ index value (by simp; omega)
    · rw [hres]
      simp only [List.length_set, List.length_append, List.length_replicate]
      omega
    · intro j hj1 hj2
      rw [hres, getD_set_ne _ index j value (by omega),
        List.getD_append_right _ _ _ _ hj1,
        List.getD_eq_getElem _ _ (by simp; omega)]
      exact List.getElem_replicate 0 _
    · intro j hj1 hj2
      rw [hres, getD_set_ne _ index j value (Ne.symm hj2),
        List.getD_append _ _ _ _ hj1]
  · have hres : (t.setWayPointDurationFromPrevious index value).duration_from_previous_ =
        t.duration_from_previous_.set index value := by
      rw [setDur_durations, if_neg hle]
    refine ⟨?_, ?_, ?_, ?_⟩
    · rw [hres]
      exact getD_set_self _ index value (by omega)
    · rw [hres]
      simp only [List.length_set]
      omega
    · intro j hj1 hj2
      exact absurd hj1 (by omega)
    · intro j hj1 hj2
      rw [hres, getD_set_ne _ index j value (Ne.symm hj2)]

/-- Witness for C2: starting from a trajectory with one stored duration `7`,
`setWayPointDurationFromPrevious 3 9` makes position 3 equal `9`, position 1
(created by the resize) equal `0`, and leaves position 0 unchanged. -/
theorem C2_setWayPointDurationFromPrevious_spec_witness :
    (tEx2.setWayPointDurationFromPrevious 3 9).duration_from_previous_.getD 3 0 = 9 ∧
    (tEx2.setWayPointDurationFromPrevious 3 9).duration_from_previous_.getD 1 0 = 0 ∧
    (tEx2.setWayPointDurationFromPrevious 3 9).duration_from_previous_.getD 0 0 =
      tEx2.duration_from_previous_.getD 0 0 :=
  ⟨(C2_setWayPointDurationFromPrevious_spec tEx2 3 9).1,
   (C2_setWayPointDurationFromPrevious_spec tEx2 3 9).2.2.1 1 (by decide) (by decide),
   (C2_setWayPointDurationFromPrevious_spec tEx2 3 9).2.2.2 0 (by decide) (by decide)⟩

/-- C3: `getWayPointDurationFromPrevious(index)` equals the stored duration at
`index` when `index` is strictly below the length of the duration sequence and
`0.0` otherwise; equivalently it is `getD` with default `0`. As a pure
function of the trajectory it cannot fail and does not modify it. -/
theorem C3_getWayPointDurationFromPrevious_spec (t : RobotTrajectory) (index : Nat) :
    t.getWayPointDurationFromPrevious index = t.duration_from_previous_.getD index 0 ∧
    (∀ h : index < t.duration_from_previous_.length,
      t.getWayPointDurationFromPrevious index = t.duration_from_previous_.get ⟨index, h⟩) ∧
    (t.duration_from_previous_.length ≤ index →
      t.getWayPointDurationFromPrevious index = 0) := by
  refine ⟨?_, ?_, ?_⟩
  · by_cases h : index < t.duration_from_previous_.length
    · rw [List.getD_eq_getElem _ _ h]
      simp [RobotTrajectory.getWayPointDurationFromPrevious, h]
    · rw [List.getD_eq_default _ _ (Nat.le_of_not_lt h)]
      simp [RobotTrajectory.getWayPointDurationFromPrevious, h]
  · intro h
    simp [RobotTrajectory.getWayPointDurationFromPrevious, h]
  · intro h
    simp [RobotTrajectory.getWayPointDurationFromPrevious, Nat.not_lt.mpr h]

/-- Witness for C3: on a trajectory with stored durations `[3, 4]`, index 1 is
in range and returns the stored `4`; index 5 is out of range and returns 0. -/
theorem C3_getWayPointDurationFromPrevious_spec_witness :
    RobotTrajectory.getWayPointDurationFromPrevious tEx 1 = 4 ∧
    RobotTrajectory.getWayPointDurationFromPrevious tEx 5 = 0 := by
  constructor
  · have h := (C3_getWayPointDurationFromPrevious_spec tEx 1).2.1 (by decide)
    simpa [tEx] using h
  · exact (C3_getWayPointDurationFromPrevious_spec tEx 5).2.2 (by decide)

end RobotTrajectoryModel
